import Mathlib

/-!
Verification development for the respira-dashboard IoT core
(src/services/iot/IoTManager.ts, WiFiService.ts with the embedded
BluetoothService, SerialService.ts).

Shallow embedding conventions:
* JavaScript strings handled character-wise are modelled as List Char;
  message-type tags compared only for equality stay String.
* A DataView over a BLE characteristic value is modelled as List Nat,
  each element one byte value; an out-of-range getUint8 / getUint16
  (which throws RangeError in JS) is modelled as Except.error.
* JavaScript dynamic values appearing in parsed serial frames are
  modelled by JValue (number or string); JS truthiness of such a value
  is the function truthy, and the JS expression a || b on two possibly
  undefined values is jsOr on Option JValue.
* setTimeout / clearTimeout state is modelled explicitly: the wifi
  service state carries the list of armed-but-not-yet-fired timers
  next to the reconnectTimers map of tracked handles, so that the
  difference between overwriting a tracked handle and cancelling the
  underlying timer is visible.
-/

namespace Respira

/-- A JavaScript value stored in a parsed serial key-value map:
parseSimpleData stores either the parseFloat result (a number) or the
trimmed raw string. Numbers are modelled as rationals. -/
inductive JValue : Type where
  | num (q : Rat) : JValue
  | str (s : List Char) : JValue
deriving DecidableEq, Repr

/-- JS truthiness of a JValue: a number is truthy iff nonzero, a string
iff nonempty (NaN never occurs among stored values: parseSimpleData
stores a number only when isNaN is false). -/
def truthy : JValue → Bool
  | .num q => q ≠ 0
  | .str s => s ≠ []

/-- The JS expression a || b where each operand is a possibly undefined
JValue (undefined = none): returns a when a is defined and truthy,
otherwise b. -/
def jsOr (a b : Option JValue) : Option JValue :=
  match a with
  | some v => if truthy v then some v else b
  | none => b

/-- JS String.prototype.split with a one-character separator: always
returns a nonempty list of (possibly empty) segments. -/
def splitOnChar (d : Char) : List Char → List (List Char)
  | [] => [[]]
  | c :: cs =>
    if c = d then [] :: splitOnChar d cs
    else
      match splitOnChar d cs with
      | [] => [[c]]
      | s :: ss => (c :: s) :: ss

/-- JS String.prototype.trim on a character list: strip leading and
trailing whitespace. -/
def trimChars (s : List Char) : List Char :=
  ((s.dropWhile Char.isWhitespace).reverse.dropWhile Char.isWhitespace).reverse

/-- One decimal digit? -/
def isDigitChar (c : Char) : Bool := ('0' ≤ c ∧ c ≤ '9')

/-- Numeric value of a string of decimal digits (most significant
first). -/
def digitsVal (ds : List Char) : Nat :=
  ds.foldl (fun acc c => 10 * acc + (c.toNat - '0'.toNat)) 0

/-- Model of the JS builtin parseFloat restricted to the shapes the
serial protocol produces: optional sign, a run of decimal digits, an
optional fractional digit run; any remaining suffix is ignored exactly
as parseFloat ignores trailing garbage. Returns none where parseFloat
returns NaN (no leading digits at all). Exponent forms are not
produced by the devices and are not modelled. -/
def jsParseFloat (s : List Char) : Option Rat :=
  let core : List Char → Option Rat := fun t =>
    let intDigits := t.takeWhile isDigitChar
    let rest := t.dropWhile isDigitChar
    let fracDigits :=
      match rest with
      | '.' :: r => r.takeWhile isDigitChar
      | _ => []
    if intDigits = [] ∧ fracDigits = [] then none
    else if fracDigits = [] then some ((digitsVal intDigits : Rat))
    else
      some ((digitsVal intDigits : Rat) +
        (digitsVal fracDigits : Rat) / ((10 : Rat) ^ fracDigits.length))
  match s with
  | '-' :: t => (core t).map (fun q => -q)
  | '+' :: t => core t
  | t => core t

/-- Overwrite-or-append assignment result[key] = v on an association
list keyed by character lists (models assignment to a plain JS object
property). -/
def setKV (m : List (List Char × JValue)) (k : List Char) (v : JValue) :
    List (List Char × JValue) :=
  match m with
  | [] => [(k, v)]
  | (k0, v0) :: rest =>
    if k0 = k then (k0, v) :: rest else (k0, v0) :: setKV rest k v

/-- Property lookup parsed[key] (undefined = none). -/
def lookupKV (m : List (List Char × JValue)) (k : List Char) : Option JValue :=
  match m with
  | [] => none
  | (k0, v0) :: rest => if k0 = k then some v0 else lookupKV rest k

/-- SerialService.parseSimpleData: split the frame on commas, each pair
on a colon taking the first two segments, keep a pair only when both
key and value are nonempty strings (JS truthiness of the destructured
parts), store parseFloat of the trimmed value when it is a number and
the trimmed string otherwise, under the trimmed key. -/
def parseSimpleData (data : List Char) : List (List Char × JValue) :=
  (splitOnChar ',' data).foldl
    (fun result pair =>
      let parts := splitOnChar ':' pair
      let key := parts.getD 0 []
      match parts.get? 1 with
      | none => result
      | some value =>
        if key = [] ∨ value = [] then result
        else
          match jsParseFloat (trimChars value) with
          | some q => setKV result (trimChars key) (.num q)
          | none => setKV result (trimChars key) (.str (trimChars value)))
    []

/-- The DeviceData record built by SerialService.processReceivedData
after the undefined-values filter: each optional field is none exactly
when the merged JS value was undefined. timestamp is Date.now() passed
in by the caller. -/
structure SerialDeviceData : Type where
  heartRate : Option JValue
  airQuality : Option JValue
  inhalerUsage : Option JValue
  inhalerBattery : Option JValue
  wearableBattery : Option JValue
  timestamp : Nat
deriving DecidableEq, Repr

/-- The field-merge step of SerialService.processReceivedData on the
parsed key-value map: canonical name falsy-coalesced with its short
alias via the JS || operator, wearableBattery having no alias. -/
def mergeParsed (now : Nat) (parsed : List (List Char × JValue)) :
    SerialDeviceData where
  heartRate := jsOr (lookupKV parsed ("heartRate".toList))
    (lookupKV parsed ("hr".toList))
  airQuality := jsOr (lookupKV parsed ("airQuality".toList))
    (lookupKV parsed ("aq".toList))
  inhalerUsage := jsOr (lookupKV parsed ("inhalerUsage".toList))
    (lookupKV parsed ("usage".toList))
  inhalerBattery := jsOr (lookupKV parsed ("inhalerBattery".toList))
    (lookupKV parsed ("battery".toList))
  wearableBattery := lookupKV parsed ("wearableBattery".toList)
  timestamp := now

/-- SerialService.processReceivedData on a frame that is not valid JSON
(JSON.parse throws, the catch falls back to parseSimpleData), followed
by the alias merge and the undefined filter. -/
def processSimpleFrame (now : Nat) (data : List Char) : SerialDeviceData :=
  mergeParsed now (parseSimpleData data)

/-! ## BluetoothService.parseDeviceData: the TLV decoder -/

/-- The Partial DeviceData record built by BluetoothService.parseDeviceData:
only the four fields the TLV protocol can set, each absent until a record
of the matching type is decoded. -/
structure PartialDeviceData : Type where
  heartRate : Option Nat := none
  airQuality : Option Nat := none
  inhalerUsage : Option Nat := none
  inhalerBattery : Option Nat := none
deriving DecidableEq, Repr

/-- DataView.getUint8: returns the byte at the offset, or throws a
RangeError (modelled as Except.error) when the offset is out of range. -/
def dvGetUint8 (value : List Nat) (off : Nat) : Except Unit Nat :=
  match value[off]? with
  | some b => .ok b
  | none => .error ()

/-- DataView.getUint16 with littleEndian = true: low byte at the offset,
high byte at offset+1; throws (Except.error) when either is out of
range. -/
def dvGetUint16LE (value : List Nat) (off : Nat) : Except Unit Nat :=
  match value[off]?, value[off + 1]? with
  | some lo, some hi => .ok (lo + 256 * hi)
  | _, _ => .error ()

/-- The body of one iteration of the parseDeviceData switch: types
0x01-0x03 read a little-endian u16 at the offset, 0x04 reads a u8, any
other type reads nothing and leaves the record unchanged. -/
def tlvSwitch (value : List Nat) (type off2 : Nat) (data : PartialDeviceData) :
    Except Unit PartialDeviceData :=
  if type = 1 then (dvGetUint16LE value off2).map fun v => { data with heartRate := some v }
  else if type = 2 then (dvGetUint16LE value off2).map fun v => { data with airQuality := some v }
  else if type = 3 then (dvGetUint16LE value off2).map fun v => { data with inhalerUsage := some v }
  else if type = 4 then (dvGetUint8 value off2).map fun v => { data with inhalerBattery := some v }
  else .ok data

/-- The while loop of BluetoothService.parseDeviceData: while
offset < byteLength read the type byte at offset and the length byte at
offset+1, advance past the two-byte header, run the switch, then advance
by the declared length. A read past the end of the DataView surfaces as
Except.error (the thrown RangeError). -/
def parseLoop (value : List Nat) (offset : Nat) (data : PartialDeviceData) :
    Except Unit PartialDeviceData :=
  if h : offset < value.length then
    match dvGetUint8 value (offset + 1) with
    | .error e => .error e
    | .ok length =>
      match tlvSwitch value (value.get ⟨offset, h⟩) (offset + 2) data with
      | .error e => .error e
      | .ok d => parseLoop value (offset + 2 + length) d
  else .ok data
termination_by value.length - offset
decreasing_by simp_wf; omega

/-- BluetoothService.parseDeviceData: run the TLV loop from offset 0 on
an empty record. -/
def parseDeviceData (value : List Nat) : Except Unit PartialDeviceData :=
  parseLoop value 0 {}

/-- BluetoothService.handleDataReceived around the parser: the try/catch
turns a thrown RangeError into a logged error and no emitted record (the
frame is dropped), so the notification read loop continues. -/
def handleDataReceived (value : List Nat) : Option PartialDeviceData :=
  (parseDeviceData value).toOption

/-- Suffix form of the TLV loop used for reasoning: working on
value.drop offset instead of carrying the offset. -/
def parseAux : List Nat → PartialDeviceData → Except Unit PartialDeviceData
  | [], data => .ok data
  | _ :: [], _ => .error ()
  | t :: len :: body, data =>
    match tlvSwitch body t 0 data with
    | .error e => .error e
    | .ok d => parseAux (body.drop len) d
termination_by l _ => l.length
decreasing_by simp_wf; have := List.length_drop len body; omega

/-- One TLV record of the wireless wire format:
[type:1 byte][length:1 byte][value: length bytes]. -/
structure TLVRecord : Type where
  rtype : Nat
  rlen : Nat
  rval : List Nat
deriving DecidableEq, Repr

/-- A record is well formed when its bytes are byte values, its declared
length matches its value bytes, and a recognized type declares at least
the number of bytes its read consumes (2 for the u16 types 0x01-0x03,
1 for the u8 type 0x04). -/
def TLVRecord.wf (r : TLVRecord) : Prop :=
  r.rtype < 256 ∧ r.rlen < 256 ∧ (∀ b ∈ r.rval, b < 256) ∧
  r.rval.length = r.rlen ∧
  (r.rtype = 1 ∨ r.rtype = 2 ∨ r.rtype = 3 → 2 ≤ r.rlen) ∧
  (r.rtype = 4 → 1 ≤ r.rlen)

instance (r : TLVRecord) : Decidable r.wf := by
  unfold TLVRecord.wf; infer_instance

/-- Serialize a record: type byte, length byte, value bytes. -/
def encodeRecord (r : TLVRecord) : List Nat := r.rtype :: r.rlen :: r.rval

/-- Serialize a frame: the concatenation of its records. -/
def encodeFrame (rs : List TLVRecord) : List Nat := (rs.map encodeRecord).flatten

/-- The record-level effect of the parseDeviceData switch: the u16 types
set their field from the first two value bytes (little-endian), type
0x04 sets the battery from the first value byte, any other type leaves
the record untouched. -/
def applyRecord (d : PartialDeviceData) (r : TLVRecord) : PartialDeviceData :=
  if r.rtype = 1 then { d with heartRate := some (r.rval.getD 0 0 + 256 * r.rval.getD 1 0) }
  else if r.rtype = 2 then { d with airQuality := some (r.rval.getD 0 0 + 256 * r.rval.getD 1 0) }
  else if r.rtype = 3 then { d with inhalerUsage := some (r.rval.getD 0 0 + 256 * r.rval.getD 1 0) }
  else if r.rtype = 4 then { d with inhalerBattery := some (r.rval.getD 0 0) }
  else d

/-! ## WiFiService: message routing -/

/-- Which branch of the switch in WiFiService.handleMessage handles a
message: the data handler, the status handler, the error handler, or
the default branch that only logs an unknown message type. -/
inductive MsgAction : Type where
  | dataMsg : MsgAction
  | statusMsg : MsgAction
  | errorMsg : MsgAction
  | unknownMsg : MsgAction
deriving DecidableEq, Repr

/-- WiFiService.handleMessage: dispatch on the type field of the JSON
envelope. -/
def handleMessage (t : String) : MsgAction :=
  if t = "data" then .dataMsg
  else if t = "status" then .statusMsg
  else if t = "error" then .errorMsg
  else .unknownMsg

/-- Whether the chosen branch builds a DeviceData telemetry record
(only handleDataMessage does). -/
def producesDeviceData : MsgAction → Bool
  | .dataMsg => true
  | _ => false

/-- How many status/error events the chosen branch produces: one when
the status or error handler runs, zero otherwise (the default branch
only logs an unknown-type line). -/
def statusErrorEvents : MsgAction → Nat
  | .statusMsg => 1
  | .errorMsg => 1
  | _ => 0

/-- How many telemetry (DeviceData) records the chosen branch produces. -/
def telemetryEvents : MsgAction → Nat
  | .dataMsg => 1
  | _ => 0

/-! ## WiFiService: reconnection timers

State of one WiFiService instance restricted to what the reconnection
logic touches. pendingTimers lists the timers armed by setTimeout and
neither fired nor cancelled yet, oldest first, each entry carrying the
device id it was armed for, the attempts value captured by the callback
closure, and the timer handle. reconnectTimers is the tracked
Map<string, Timeout>: an entry can be overwritten without the
underlying timer leaving pendingTimers, exactly as Map.set does not
clearTimeout. -/

/-- Configuration slice of WiFiServiceConfig used by reconnection
(defaults: reconnectInterval 5000, maxReconnectAttempts 5). -/
structure WifiConfig : Type where
  maxReconnectAttempts : Nat
deriving DecidableEq, Repr

/-- The default WiFiServiceConfig value for maxReconnectAttempts. -/
def defaultWifiConfig : WifiConfig := ⟨5⟩

/-- One pending setTimeout: device id, the attempts value captured in
the callback closure, and the timer handle. -/
structure PendingTimer : Type where
  device : String
  capturedAttempts : Nat
  handle : Nat
deriving DecidableEq, Repr

/-- WiFiService state relevant to connection and reconnection. -/
structure WifiState : Type where
  connections : List String := []
  deviceConfigs : List String := []
  reconnectAttempts : List (String × Nat) := []
  reconnectTimers : List (String × Nat) := []
  pendingTimers : List PendingTimer := []
  nextHandle : Nat := 0
  capLogs : Nat := 0
  statusEvents : List String := []
deriving DecidableEq, Repr

/-- Map.get with the JS || 0 fallback used for reconnectAttempts. -/
def getAttempts (m : List (String × Nat)) (d : String) : Nat :=
  match m with
  | [] => 0
  | (k, v) :: rest => if k = d then v else getAttempts rest d

/-- Map.set on a string-keyed map. -/
def mapSet (m : List (String × Nat)) (d : String) (v : Nat) : List (String × Nat) :=
  match m with
  | [] => [(d, v)]
  | (k, v0) :: rest => if k = d then (k, v) :: rest else (k, v0) :: mapSet rest d v

/-- Map.delete on a string-keyed map. -/
def mapDelete (m : List (String × Nat)) (d : String) : List (String × Nat) :=
  m.filter (fun kv => kv.1 ≠ d)

/-- WiFiService.scheduleReconnection: read the attempt count (|| 0); at
or above maxReconnectAttempts only log and return; otherwise arm a new
setTimeout capturing the current attempts and record its handle in
reconnectTimers with Map.set. No clearTimeout happens on this path, so
any previously armed timer stays pending. statusEvents is untouched:
no code path of WiFiService emits a status event (console.log only). -/
def scheduleReconnection (cfg : WifiConfig) (d : String) (st : WifiState) :
    WifiState :=
  let attempts := getAttempts st.reconnectAttempts d
  if cfg.maxReconnectAttempts ≤ attempts then
    { st with capLogs := st.capLogs + 1 }
  else
    { st with
      pendingTimers := st.pendingTimers ++ [⟨d, attempts, st.nextHandle⟩],
      reconnectTimers := mapSet st.reconnectTimers d st.nextHandle,
      nextHandle := st.nextHandle + 1 }

/-- WiFiService.handleDisconnection: drop the connection entry and, when
a device config is present, schedule a reconnection. -/
def handleDisconnection (cfg : WifiConfig) (d : String) (st : WifiState) :
    WifiState :=
  let st1 := { st with connections := st.connections.filter (· ≠ d) }
  if d ∈ st.deviceConfigs then scheduleReconnection cfg d st1 else st1

/-- The body of the setTimeout callback armed by scheduleReconnection,
on the path where the awaited connectToDevice resolves to false: the
oldest pending timer fires (it is consumed), reconnectAttempts is set
to its captured attempts + 1, and scheduleReconnection runs again. The
fired timer's handle is not removed from reconnectTimers (the code
never deletes it there). -/
def fireNextTimerFail (cfg : WifiConfig) (st : WifiState) : WifiState :=
  match st.pendingTimers with
  | [] => st
  | t :: rest =>
    scheduleReconnection cfg t.device
      { st with
        pendingTimers := rest,
        reconnectAttempts := mapSet st.reconnectAttempts t.device
          (t.capturedAttempts + 1) }

/-- WiFiService.connectToDevice on the connection-timeout path: the
device config is stored first (deviceConfigs.set), then the WebSocket
times out, ws.close() fires the onclose handler, and onclose calls
handleDisconnection. -/
def wifiConnectTimeout (cfg : WifiConfig) (d : String) (st : WifiState) :
    WifiState :=
  handleDisconnection cfg d
    { st with deviceConfigs :=
        if d ∈ st.deviceConfigs then st.deviceConfigs else st.deviceConfigs ++ [d] }

/-- Number of pending (armed, unfired, uncancelled) timers that were
armed for a given device id. -/
def pendingFor (d : String) (st : WifiState) : Nat :=
  (st.pendingTimers.filter (fun t => t.device = d)).length

/-! ## IoTManager: connect state machine and event fan-out -/

/-- DeviceInfo.status in IoTManager: the four statuses the type admits.
There is no terminal failed status. -/
inductive DeviceStatus : Type where
  | connected : DeviceStatus
  | disconnected : DeviceStatus
  | connecting : DeviceStatus
  | error : DeviceStatus
deriving DecidableEq, Repr

/-- How the transport branch of IoTManager.connectToDevice ends: the
awaited connect call resolves true, resolves false, or throws. -/
inductive TransportOutcome : Type where
  | resolvedTrue : TransportOutcome
  | resolvedFalse : TransportOutcome
  | threw : TransportOutcome
deriving DecidableEq, Repr

/-- The slice of IoTManager state for one registered device: its status
field and the list of status events emitted for it (each event carries
the status at emission time). -/
structure MgrState : Type where
  status : DeviceStatus := .disconnected
  events : List DeviceStatus := []
deriving DecidableEq, Repr

/-- IoTManager.connectToDevice for a registered device: set status to
connecting and emit a status event; then run the transport branch. A
resolved promise (true or false) is returned as-is with no further
status change; a throw is caught, sets status to error and emits a
second status event, and returns false. -/
def mgrConnectToDevice (st : MgrState) (outcome : TransportOutcome) :
    MgrState × Bool :=
  let st1 : MgrState := ⟨.connecting, st.events ++ [.connecting]⟩
  match outcome with
  | .resolvedTrue => (st1, true)
  | .resolvedFalse => (st1, false)
  | .threw => (⟨.error, st1.events ++ [.error]⟩, false)

/-- A subscriber callback as the manager sees it: it either returns or
throws (Except.error carries the thrown message). -/
def Subscriber (α : Type) : Type := α → Except String Unit

/-- One forEach iteration of IoTManager.emitData / emitStatusUpdate:
call the callback inside try/catch; a throw is caught and logged
(the returned Option String is the logged error), never rethrown. -/
def runSubscriber {α : Type} (cb : Subscriber α) (x : α) : Option String :=
  match cb x with
  | .ok _ => none
  | .error e => some e

/-- IoTManager.emitData / emitStatusUpdate: iterate over all registered
callbacks in order, invoking each inside its own try/catch; the result
is the per-subscriber log of caught errors. The emitter itself never
receives an exception (the function is total into a plain list). -/
def emitToAll {α : Type} (cbs : List (Subscriber α)) (x : α) :
    List (Option String) :=
  match cbs with
  | [] => []
  | cb :: rest => runSubscriber cb x :: emitToAll rest x

/-! ## SerialService.startReading: chunk reassembly -/

/-- One iteration of the read loop body in SerialService.startReading:
append the decoded chunk to the buffer, split on newline, keep the last
(possibly incomplete) segment as the new buffer (lines.pop() with the
|| fallback to the empty string), and hand every remaining segment
whose trim is nonempty, trimmed, to processReceivedData in order. -/
def processChunk (buffer chunk : List Char) : List Char × List (List Char) :=
  let lines := splitOnChar '\n' (buffer ++ chunk)
  (lines.getLastD [],
    (lines.dropLast.map trimChars).filter (fun l => l ≠ []))

/-- The whole read loop of startReading over a finite sequence of
chunks: thread the buffer through processChunk and concatenate the
processed frames in arrival order. -/
def readLoop (chunks : List (List Char)) (buffer : List Char) :
    List Char × List (List Char) :=
  match chunks with
  | [] => (buffer, [])
  | c :: cs =>
    let step := processChunk buffer c
    let rest := readLoop cs step.1
    (rest.1, step.2 ++ rest.2)

/-- The text after the last newline of a stream. -/
def lastSeg (s : List Char) : List Char := (splitOnChar '\n' s).getLastD []

/-- The trimmed non-blank complete (newline-terminated) segments of a
stream, in order. -/
def completedSegments (s : List Char) : List (List Char) :=
  ((splitOnChar '\n' s).dropLast.map trimChars).filter (fun l => l ≠ [])

/-- Prepend-merge helper: glue a prefix onto the first segment of a
split (the head always exists for a split result). -/
def consHead (x : List Char) : List (List Char) → List (List Char)
  | [] => [x]
  | y :: ys => (x ++ y) :: ys

/-! ## Distinguished states of the reconnection trace -/

/-- The WiFiService state after an unsolicited disconnect of device d
followed by j consecutive failed timer firings, while still below the
attempt cap: one timer pending (armed with captured attempts j, handle
j), the tracked handle map pointing at it, and the attempts counter at
j (absent from the map before the first failure). -/
def armedState (d : String) (j : Nat) : WifiState where
  connections := []
  deviceConfigs := [d]
  reconnectAttempts := if j = 0 then [] else [(d, j)]
  reconnectTimers := [(d, j)]
  pendingTimers := [⟨d, j, j⟩]
  nextHandle := j + 1
  capLogs := 0
  statusEvents := []

/-- The WiFiService state after the attempt cap is reached for device
d with maxReconnectAttempts = m: no timer pending, the stale tracked
handle of the last fired timer still recorded, the attempts counter at
m, one cap log line and no status event. -/
def cappedState (d : String) (m : Nat) : WifiState where
  connections := []
  deviceConfigs := [d]
  reconnectAttempts := [(d, m)]
  reconnectTimers := [(d, m - 1)]
  pendingTimers := []
  nextHandle := m
  capLogs := 1
  statusEvents := []

/-! ## Field access by canonical name (serial merge) -/

/-- The four canonical-name/short-alias pairs the serial merge
coalesces. -/
def aliasPairs : List (List Char × List Char) :=
  [("heartRate".toList, "hr".toList),
   ("airQuality".toList, "aq".toList),
   ("inhalerUsage".toList, "usage".toList),
   ("inhalerBattery".toList, "battery".toList)]

/-- Select the merged field of a SerialDeviceData by its canonical
name. -/
def getMergedField (canon : List Char) (d : SerialDeviceData) : Option JValue :=
  if canon = "heartRate".toList then d.heartRate
  else if canon = "airQuality".toList then d.airQuality
  else if canon = "inhalerUsage".toList then d.inhalerUsage
  else if canon = "inhalerBattery".toList then d.inhalerBattery
  else none

/-- A subscriber that handles every event without throwing. -/
def okSubscriber : Subscriber Nat := fun _ => .ok ()

/-- A subscriber whose handler always throws. -/
def boomSubscriber : Subscriber Nat := fun _ => .error "boom"

/-! ## Helper lemmas -/

theorem dvGetUint8_drop (l : List Nat) (n m : Nat) :
    dvGetUint8 (l.drop n) m = dvGetUint8 l (n + m) := by
  rw [dvGetUint8, dvGetUint8, List.getElem?_drop]

theorem dvGetUint16LE_drop (l : List Nat) (n m : Nat) :
    dvGetUint16LE (l.drop n) m = dvGetUint16LE l (n + m) := by
  rw [dvGetUint16LE, dvGetUint16LE, List.getElem?_drop, List.getElem?_drop,
    Nat.add_assoc]

theorem tlvSwitch_drop (l : List Nat) (t n : Nat) (d : PartialDeviceData) :
    tlvSwitch l t n d = tlvSwitch (l.drop n) t 0 d := by
  simp [tlvSwitch, dvGetUint8_drop, dvGetUint16LE_drop]

/-- The offset-carrying source loop agrees with the suffix form. -/
theorem parseLoop_eq_parseAux (value : List Nat) (offset : Nat)
    (data : PartialDeviceData) :
    parseLoop value offset data = parseAux (value.drop offset) data := by
  have main : ∀ n offset data, value.length - offset ≤ n →
      parseLoop value offset data = parseAux (value.drop offset) data := by
    intro n
    induction n with
    | zero =>
      intro offset data h
      have hge : value.length ≤ offset := by omega
      rw [parseLoop, dif_neg (by omega), List.drop_eq_nil_of_le hge, parseAux]
    | succ n ih =>
      intro offset data hle
      rw [parseLoop]
      by_cases h : offset < value.length
      · rw [dif_pos h, List.drop_eq_getElem_cons h]
        by_cases h1 : offset + 1 < value.length
        · have hlen : value[offset + 1]? = some value[offset + 1] :=
            List.getElem?_eq_getElem h1
          rw [List.drop_eq_getElem_cons h1, parseAux]
          simp only [dvGetUint8, hlen, List.get_eq_getElem]
          rw [tlvSwitch_drop value _ (offset + 2), List.drop_drop]
          have e1 : offset + 1 + 1 = offset + 2 := by omega
          rw [e1]
          cases tlvSwitch (value.drop (offset + 2)) value[offset] 0 data with
          | error e => rfl
          | ok d =>
            simp only []
            exact ih (offset + 2 + value[offset + 1]) d (by omega)
        · have hnone : value[offset + 1]? = none := by
            rw [List.getElem?_eq_none_iff]; omega
          have hnil : value.drop (offset + 1) = [] :=
            List.drop_eq_nil_of_le (by omega)
          rw [hnil, parseAux]
          simp only [dvGetUint8, hnone]
      · rw [dif_neg h, List.drop_eq_nil_of_le (by omega), parseAux]
  exact main (value.length - offset) offset data (Nat.le_refl _)

theorem tlvSwitch_wf (r : TLVRecord) (rest : List Nat) (d : PartialDeviceData)
    (hwf : r.wf) :
    tlvSwitch (r.rval ++ rest) r.rtype 0 d = .ok (applyRecord d r) := by
  obtain ⟨-, -, -, hlen, hu16, hu8⟩ := hwf
  have hget : ∀ i (hi : i < r.rval.length),
      (r.rval ++ rest)[i]? = some (r.rval.get ⟨i, hi⟩) := by
    intro i hi
    rw [List.getElem?_append_left hi, List.getElem?_eq_getElem hi, List.get_eq_getElem]
  have hgetD : ∀ i (hi : i < r.rval.length),
      (r.rval[i]?).getD 0 = r.rval.get ⟨i, hi⟩ := by
    intro i hi
    rw [List.getElem?_eq_getElem hi, Option.getD_some, List.get_eq_getElem]
  by_cases h1 : r.rtype = 1
  · have hl : 2 ≤ r.rval.length := by rw [hlen]; exact hu16 (Or.inl h1)
    simp [tlvSwitch, applyRecord, h1, dvGetUint16LE, Except.map,
      hget 0 (by omega), hget 1 (by omega), hgetD 0 (by omega), hgetD 1 (by omega)]
  · by_cases h2 : r.rtype = 2
    · have hl : 2 ≤ r.rval.length := by rw [hlen]; exact hu16 (Or.inr (Or.inl h2))
      simp [tlvSwitch, applyRecord, h1, h2, dvGetUint16LE, Except.map,
        hget 0 (by omega), hget 1 (by omega), hgetD 0 (by omega), hgetD 1 (by omega)]
    · by_cases h3 : r.rtype = 3
      · have hl : 2 ≤ r.rval.length := by rw [hlen]; exact hu16 (Or.inr (Or.inr h3))
        simp [tlvSwitch, applyRecord, h1, h2, h3, dvGetUint16LE, Except.map,
          hget 0 (by omega), hget 1 (by omega), hgetD 0 (by omega), hgetD 1 (by omega)]
      · by_cases h4 : r.rtype = 4
        · have hl : 1 ≤ r.rval.length := by rw [hlen]; exact hu8 h4
          simp [tlvSwitch, applyRecord, h1, h2, h3, h4, dvGetUint8, Except.map,
            hget 0 (by omega), hgetD 0 (by omega)]
        · simp [tlvSwitch, applyRecord, h1, h2, h3, h4]

/-- Parsing a well-formed record consumes exactly its encoding
(2 header bytes plus the declared length) and applies its record
effect, leaving the rest of the input to the continuation. -/
theorem parseAux_record (r : TLVRecord) (rest : List Nat)
    (d : PartialDeviceData) (hwf : r.wf) :
    parseAux (encodeRecord r ++ rest) d = parseAux rest (applyRecord d r) := by
  have hlen : r.rval.length = r.rlen := hwf.2.2.2.1
  rw [encodeRecord]
  show parseAux (r.rtype :: r.rlen :: (r.rval ++ rest)) d = _
  rw [parseAux, tlvSwitch_wf r rest d hwf]
  simp only []
  rw [← hlen, List.drop_left]

/-- Parsing a frame of well-formed records folds their record effects in
order and never errors. -/
theorem parseAux_frame (rs : List TLVRecord) (d : PartialDeviceData)
    (hwf : ∀ r ∈ rs, r.wf) :
    parseAux (encodeFrame rs) d = .ok (rs.foldl applyRecord d) := by
  induction rs generalizing d with
  | nil => simp [encodeFrame, parseAux]
  | cons r rs ih =>
    rw [encodeFrame, List.map_cons, List.flatten_cons]
    rw [show (rs.map encodeRecord).flatten = encodeFrame rs from rfl]
    rw [parseAux_record r (encodeFrame rs) d (hwf r (by simp)),
      ih (applyRecord d r) (fun x hx => hwf x (by simp [hx])), List.foldl_cons]

theorem splitOnChar_ne_nil (d : Char) (s : List Char) : splitOnChar d s ≠ [] := by
  cases s with
  | nil => simp [splitOnChar]
  | cons c cs =>
    rw [splitOnChar]
    by_cases h : c = d
    · simp [h]
    · simp only [h, if_false]
      cases splitOnChar d cs <;> simp

theorem splitOnChar_cons_ne (d c : Char) (cs : List Char) (h : ¬ c = d) :
    splitOnChar d (c :: cs) = consHead [c] (splitOnChar d cs) := by
  rw [splitOnChar]
  simp only [h, if_false]
  cases splitOnChar d cs <;> rfl

theorem consHead_consHead (x y : List Char) (l : List (List Char)) :
    consHead x (consHead y l) = consHead (x ++ y) l := by
  cases l <;> simp [consHead]

theorem consHead_append_left (x : List Char) (l m : List (List Char))
    (h : l ≠ []) : consHead x (l ++ m) = consHead x l ++ m := by
  cases l with
  | nil => exact absurd rfl h
  | cons y ys => simp [consHead]

theorem dropLast_consHead (x : List Char) (l : List (List Char))
    (h : 2 ≤ l.length) : (consHead x l).dropLast = consHead x l.dropLast := by
  match l, h with
  | y :: z :: zs, _ => simp [consHead]

theorem getLastD_consHead (x : List Char) (l : List (List Char))
    (h : 2 ≤ l.length) : (consHead x l).getLastD [] = l.getLastD [] := by
  match l, h with
  | y :: z :: zs, _ => simp [consHead, List.getLastD_cons]

/-- Splitting a concatenation: the left part contributes its complete
segments, and its trailing segment is glued onto the first segment of
the right part's split. -/
theorem splitOnChar_append (d : Char) (a b : List Char) :
    splitOnChar d (a ++ b) =
      (splitOnChar d a).dropLast ++
        consHead ((splitOnChar d a).getLastD []) (splitOnChar d b) := by
  induction a with
  | nil =>
    have hb := splitOnChar_ne_nil d b
    cases hsb : splitOnChar d b with
    | nil => exact absurd hsb hb
    | cons y ys => simp [splitOnChar, consHead, hsb]
  | cons c cs ih =>
    by_cases hc : c = d
    · subst hc
      rw [List.cons_append, splitOnChar, if_pos rfl, ih, splitOnChar, if_pos rfl]
      have hcs := splitOnChar_ne_nil c cs
      cases hscs : splitOnChar c cs with
      | nil => exact absurd hscs hcs
      | cons y ys => simp [List.getLastD_cons]
    · rw [List.cons_append, splitOnChar_cons_ne d c _ hc, ih,
        splitOnChar_cons_ne d c cs hc]
      cases hscs : splitOnChar d cs with
      | nil => exact absurd hscs (splitOnChar_ne_nil d cs)
      | cons y ys =>
        cases ys with
        | nil =>
          cases hsb : splitOnChar d b with
          | nil => exact absurd hsb (splitOnChar_ne_nil d b)
          | cons w ws => simp [consHead]
        | cons z zs =>
          rw [dropLast_consHead [c] (y :: z :: zs) (by simp),
            getLastD_consHead [c] (y :: z :: zs) (by simp)]
          rw [consHead_append_left [c] _ _ (by simp)]

/-- A stream without the delimiter splits into itself alone. -/
theorem splitOnChar_eq_singleton (d : Char) (s : List Char) (h : d ∉ s) :
    splitOnChar d s = [s] := by
  induction s with
  | nil => rfl
  | cons c cs ih =>
    have hc : ¬ c = d := fun he => h (by simp [he])
    rw [splitOnChar_cons_ne d c cs hc, ih (fun hm => h (by simp [hm]))]
    rfl

/-- Every segment a split produces is delimiter-free. -/
theorem not_mem_of_mem_splitOnChar (d : Char) (s : List Char) :
    ∀ x ∈ splitOnChar d s, d ∉ x := by
  induction s with
  | nil => intro x hx; simp [splitOnChar] at hx; simp [hx]
  | cons c cs ih =>
    intro x hx
    by_cases hc : c = d
    · subst hc
      rw [splitOnChar, if_pos rfl] at hx
      rcases List.mem_cons.mp hx with h | h
      · simp [h]
      · exact ih x h
    · rw [splitOnChar_cons_ne d c cs hc] at hx
      cases hscs : splitOnChar d cs with
      | nil => exact absurd hscs (splitOnChar_ne_nil d cs)
      | cons y ys =>
        rw [hscs] at hx
        rcases List.mem_cons.mp hx with h | h
        · subst h
          intro hmem
          rcases List.mem_cons.mp hmem with h1 | h1
          · exact hc h1.symm
          · exact ih y (by rw [hscs]; exact List.mem_cons_self y ys) h1
        · exact ih x (by rw [hscs]; exact List.mem_cons.mpr (Or.inr h))

theorem getLastD_mem {α : Type} (l : List α) (hl : l ≠ []) (d : α) :
    l.getLastD d ∈ l := by
  induction l generalizing d with
  | nil => exact absurd rfl hl
  | cons y ys ih =>
    rw [List.getLastD_cons]
    cases ys with
    | nil => simp [List.getLastD]
    | cons z zs => exact List.mem_cons.mpr (Or.inr (ih (by simp) y))

/-- The trailing segment of any stream is delimiter-free. -/
theorem lastSeg_no_delim (s : List Char) : '\n' ∉ lastSeg s :=
  not_mem_of_mem_splitOnChar '\n' s (lastSeg s)
    (getLastD_mem (splitOnChar '\n' s) (splitOnChar_ne_nil '\n' s) [])

/-- Splitting after gluing the delimiter-free trailing segment of x in
front of y: one merged first segment, the rest from y. -/
theorem splitOnChar_lastSeg_append (x y : List Char) :
    splitOnChar '\n' (lastSeg x ++ y) =
      consHead (lastSeg x) (splitOnChar '\n' y) := by
  rw [splitOnChar_append, splitOnChar_eq_singleton '\n' (lastSeg x) (lastSeg_no_delim x)]
  rfl

theorem splitOnChar_append_restated (x y : List Char) :
    splitOnChar '\n' (x ++ y) =
      (splitOnChar '\n' x).dropLast ++ splitOnChar '\n' (lastSeg x ++ y) := by
  rw [splitOnChar_append, splitOnChar_lastSeg_append, lastSeg]

theorem lastSeg_append_absorb (x y : List Char) :
    lastSeg (x ++ y) = lastSeg (lastSeg x ++ y) := by
  rw [lastSeg, splitOnChar_append_restated]
  rw [List.getLastD_eq_getLast?, List.getLast?_append_of_ne_nil _
    (splitOnChar_ne_nil '\n' (lastSeg x ++ y)), ← List.getLastD_eq_getLast?, lastSeg]
  rfl

theorem completedSegments_append (x y : List Char) :
    completedSegments (x ++ y) =
      completedSegments x ++ completedSegments (lastSeg x ++ y) := by
  rw [completedSegments, splitOnChar_append_restated,
    List.dropLast_append_of_ne_nil _ (splitOnChar_ne_nil '\n' (lastSeg x ++ y))]
  rw [List.map_append, List.filter_append]
  rw [completedSegments, completedSegments]

/-- Invariant form of the read loop: starting from any newline-free
buffer, the outputs are the completed trimmed non-blank segments of
buffer-plus-all-chunks and the final buffer is its trailing segment. -/
theorem readLoop_spec (chunks : List (List Char)) (buffer : List Char)
    (h : '\n' ∉ buffer) :
    readLoop chunks buffer =
      (lastSeg (buffer ++ chunks.flatten),
        completedSegments (buffer ++ chunks.flatten)) := by
  induction chunks generalizing buffer with
  | nil =>
    rw [readLoop, List.flatten_nil, List.append_nil, lastSeg,
      splitOnChar_eq_singleton '\n' buffer h, completedSegments,
      splitOnChar_eq_singleton '\n' buffer h]
    rfl
  | cons c cs ih =>
    simp only [readLoop]
    have hstep : processChunk buffer c =
        (lastSeg (buffer ++ c), completedSegments (buffer ++ c)) := rfl
    rw [hstep, ih (lastSeg (buffer ++ c)) (lastSeg_no_delim (buffer ++ c))]
    rw [List.flatten_cons, ← List.append_assoc,
      ← lastSeg_append_absorb (buffer ++ c) cs.flatten,
      ← completedSegments_append (buffer ++ c) cs.flatten]

/-- parseDeviceData in suffix form. -/
theorem parseDeviceData_eq_parseAux (value : List Nat) :
    parseDeviceData value = parseAux value {} := by
  rw [parseDeviceData, parseLoop_eq_parseAux, List.drop_zero]

/-- An unsolicited disconnect of a configured device arms the first
retry timer. -/
theorem handleDisconnection_initial (m : Nat) (d : String) (h : 0 < m) :
    handleDisconnection ⟨m⟩ d { deviceConfigs := [d] } = armedState d 0 := by
  have h0 : ¬ (m ≤ 0) := by omega
  simp [handleDisconnection, scheduleReconnection, getAttempts, mapSet, armedState, h0]

/-- A failed retry below the cap arms the next timer, carrying the
incremented attempt count. -/
theorem fireNextTimerFail_armed (m : Nat) (d : String) (j : Nat) (h : j + 1 < m) :
    fireNextTimerFail ⟨m⟩ (armedState d j) = armedState d (j + 1) := by
  have h1 : ¬ (m ≤ j + 1) := by omega
  by_cases hj : j = 0 <;>
    simp [fireNextTimerFail, armedState, scheduleReconnection, mapSet, getAttempts, hj, h1] <;>
    try omega

/-- The failed retry that reaches the cap: the callback bumps the
attempt counter to m and scheduleReconnection takes the cap branch,
arming nothing and only logging. -/
theorem fireNextTimerFail_last (m : Nat) (d : String) (h : 0 < m) :
    fireNextTimerFail ⟨m⟩ (armedState d (m - 1)) = cappedState d m := by
  have hm : m - 1 + 1 = m := by omega
  by_cases hj : m - 1 = 0
  · have h1 : m = 1 := by omega
    subst h1
    simp [fireNextTimerFail, armedState, cappedState, scheduleReconnection, mapSet,
      getAttempts]
  · simp [fireNextTimerFail, armedState, cappedState, scheduleReconnection, mapSet,
      getAttempts, hj, hm]

theorem iterate_fireNextTimerFail_armed (m : Nat) (d : String) :
    ∀ j, j < m → (fireNextTimerFail ⟨m⟩)^[j] (armedState d 0) = armedState d j := by
  intro j
  induction j with
  | zero => intro _; rfl
  | succ j ih =>
    intro hj
    rw [Function.iterate_succ_apply', ih (by omega),
      fireNextTimerFail_armed m d j (by omega)]

/-- With no pending timer, a timer firing is impossible: the capped
state is a fixed point of the failure step. -/
theorem fireNextTimerFail_capped (m : Nat) (d : String) :
    fireNextTimerFail ⟨m⟩ (cappedState d m) = cappedState d m := by
  simp [fireNextTimerFail, cappedState]

theorem emitToAll_append {α : Type} (l m : List (Subscriber α)) (x : α) :
    emitToAll (l ++ m) x = emitToAll l x ++ emitToAll m x := by
  induction l with
  | nil => rfl
  | cons cb rest ih => simp [emitToAll, ih]

theorem emitToAll_length {α : Type} (cbs : List (Subscriber α)) (x : α) :
    (emitToAll cbs x).length = cbs.length := by
  induction cbs with
  | nil => rfl
  | cons cb rest ih => simp [emitToAll, ih]

theorem emitToAll_getElem {α : Type} (cbs : List (Subscriber α)) (x : α) (i : Nat) :
    (emitToAll cbs x)[i]? = (cbs[i]?).map (fun cb => runSubscriber cb x) := by
  induction cbs generalizing i with
  | nil => simp [emitToAll]
  | cons cb rest ih =>
    cases i with
    | zero => simp [emitToAll]
    | succ i => simp [emitToAll, ih]

/-! ## Claim theorems -/

/-- Claim C1 (counterexample): after an unsolicited disconnect has
armed a retry timer for dev-1, a second disconnect-driven call to the
reconnection logic arms a second timer without cancelling the first;
two pending timers armed for dev-1 exist, refuting that at most one
pending reconnect timer exists per device id. -/
theorem wifi_second_timer_not_cancelled_cex :
    pendingFor "dev-1"
      (handleDisconnection defaultWifiConfig "dev-1"
        (handleDisconnection defaultWifiConfig "dev-1"
          { deviceConfigs := ["dev-1"] })) = 2 := by
  decide

/-- Claim C1 (amended): below the attempt cap, scheduleReconnection
appends a new pending timer and overwrites the tracked handle in
reconnectTimers without cancelling anything: every previously pending
timer for the id stays pending, so the count of pending timers for the
id always grows by one. -/
theorem wifi_schedule_arms_without_cancelling (cfg : WifiConfig) (d : String)
    (st : WifiState)
    (h : getAttempts st.reconnectAttempts d < cfg.maxReconnectAttempts) :
    (scheduleReconnection cfg d st).pendingTimers =
      st.pendingTimers ++ [⟨d, getAttempts st.reconnectAttempts d, st.nextHandle⟩] ∧
    (scheduleReconnection cfg d st).reconnectTimers =
      mapSet st.reconnectTimers d st.nextHandle ∧
    pendingFor d (scheduleReconnection cfg d st) = pendingFor d st + 1 := by
  have h1 : ¬ (cfg.maxReconnectAttempts ≤ getAttempts st.reconnectAttempts d) := by
    omega
  refine ⟨?_, ?_, ?_⟩ <;>
    simp [scheduleReconnection, h1, pendingFor, List.filter_append]

/-- Witness for the amended C1 theorem at a fresh state. -/
theorem wifi_schedule_arms_without_cancelling_witness :
    getAttempts ({} : WifiState).reconnectAttempts "dev-1" <
      defaultWifiConfig.maxReconnectAttempts ∧
    ((scheduleReconnection defaultWifiConfig "dev-1" {}).pendingTimers =
        [⟨"dev-1", 0, 0⟩] ∧
      (scheduleReconnection defaultWifiConfig "dev-1" {}).reconnectTimers =
        [("dev-1", 0)] ∧
      pendingFor "dev-1" (scheduleReconnection defaultWifiConfig "dev-1" {}) =
        pendingFor "dev-1" ({} : WifiState) + 1) :=
  ⟨by decide,
    wifi_schedule_arms_without_cancelling defaultWifiConfig "dev-1" {} (by decide)⟩

/-- Claim C2 (counterexample): with the default cap of 5, after the
unsolicited disconnect and exactly 5 consecutive failed automatic
reconnection attempts for dev-1 no status event was ever emitted
(refuting the claimed single terminal status event; the cap branch
produced one log line) and no timer remains pending. -/
theorem wifi_attempt_cap_no_terminal_event_cex :
    ((fireNextTimerFail defaultWifiConfig)^[5]
        (handleDisconnection defaultWifiConfig "dev-1"
          { deviceConfigs := ["dev-1"] })).statusEvents = [] ∧
    ((fireNextTimerFail defaultWifiConfig)^[5]
        (handleDisconnection defaultWifiConfig "dev-1"
          { deviceConfigs := ["dev-1"] })).capLogs = 1 ∧
    ((fireNextTimerFail defaultWifiConfig)^[5]
        (handleDisconnection defaultWifiConfig "dev-1"
          { deviceConfigs := ["dev-1"] })).pendingTimers = [] := by
  decide

/-- Claim C2 (amended): after exactly maxReconnectAttempts consecutive
failed automatic reconnection attempts the state is the capped state:
no timer pending and no further firing ever changes the state (no
automatic attempt occurs), but no status event of any kind has been
emitted (the cap branch only writes a log line) and the service keeps
no failed status: only the attempts counter at the cap and the stale
tracked handle remain. -/
theorem wifi_attempt_cap_behavior (m : Nat) (d : String) (h : 0 < m) :
    (fireNextTimerFail ⟨m⟩)^[m]
        (handleDisconnection ⟨m⟩ d { deviceConfigs := [d] }) = cappedState d m ∧
    (cappedState d m).pendingTimers = [] ∧
    (cappedState d m).statusEvents = [] ∧
    (cappedState d m).capLogs = 1 ∧
    getAttempts (cappedState d m).reconnectAttempts d = m ∧
    ∀ k, (fireNextTimerFail ⟨m⟩)^[k] (cappedState d m) = cappedState d m := by
  obtain ⟨n, rfl⟩ : ∃ n, m = n + 1 := ⟨m - 1, by omega⟩
  refine ⟨?_, rfl, rfl, rfl, ?_, ?_⟩
  · rw [handleDisconnection_initial (n + 1) d (by omega),
      Function.iterate_succ_apply',
      iterate_fireNextTimerFail_armed (n + 1) d n (by omega)]
    have hlast := fireNextTimerFail_last (n + 1) d (by omega)
    simpa using hlast
  · simp [cappedState, getAttempts]
  · intro k
    induction k with
    | zero => rfl
    | succ k ih => rw [Function.iterate_succ_apply', ih, fireNextTimerFail_capped]

/-- Witness for the amended C2 theorem at the default cap. -/
theorem wifi_attempt_cap_behavior_witness :
    0 < 5 ∧
    ((fireNextTimerFail ⟨5⟩)^[5]
        (handleDisconnection ⟨5⟩ "dev-1" { deviceConfigs := ["dev-1"] }) =
        cappedState "dev-1" 5 ∧
      (cappedState "dev-1" 5).pendingTimers = [] ∧
      (cappedState "dev-1" 5).statusEvents = [] ∧
      (cappedState "dev-1" 5).capLogs = 1 ∧
      getAttempts (cappedState "dev-1" 5).reconnectAttempts "dev-1" = 5 ∧
      ∀ k, (fireNextTimerFail ⟨5⟩)^[k] (cappedState "dev-1" 5) =
        cappedState "dev-1" 5) :=
  ⟨by decide, wifi_attempt_cap_behavior 5 "dev-1" (by decide)⟩

/-- Claim C3 (counterexample): on the one-byte truncated frame 0x01 the
TLV parser reads the length byte at offset 1, past the end of its
DataView; the modelled RangeError surfaces as Except.error, refuting
that the decode never throws and never reads past the end. -/
theorem tlv_truncated_frame_throws_cex :
    parseDeviceData [1] = Except.error () := by
  rw [parseDeviceData, parseLoop]
  simp [dvGetUint8]

/-- Claim C3 (amended): on every frame that is a concatenation of
well-formed TLV records the parser returns the folded record without
throwing, and the try/catch in handleDataReceived contains any parser
throw: the handler returns the parsed record on success and none
(frame dropped, read loop continues) on error. -/
theorem tlv_decode_error_contained (rs : List TLVRecord) (v : List Nat)
    (hwf : ∀ r ∈ rs, r.wf) :
    parseDeviceData (encodeFrame rs) = .ok (rs.foldl applyRecord {}) ∧
    handleDataReceived (encodeFrame rs) = some (rs.foldl applyRecord {}) ∧
    handleDataReceived v = (parseDeviceData v).toOption := by
  have hok : parseDeviceData (encodeFrame rs) = .ok (rs.foldl applyRecord {}) := by
    rw [parseDeviceData_eq_parseAux, parseAux_frame rs {} hwf]
  refine ⟨hok, ?_, rfl⟩
  rw [handleDataReceived, hok]
  rfl

/-- Witness for the amended C3 theorem: a well-formed heart-rate frame
and the truncated frame 0x01. -/
theorem tlv_decode_error_contained_witness :
    (∀ r ∈ [(⟨1, 2, [75, 0]⟩ : TLVRecord)], r.wf) ∧
    (parseDeviceData (encodeFrame [⟨1, 2, [75, 0]⟩]) =
        .ok ([(⟨1, 2, [75, 0]⟩ : TLVRecord)].foldl applyRecord {}) ∧
      handleDataReceived (encodeFrame [⟨1, 2, [75, 0]⟩]) =
        some ([(⟨1, 2, [75, 0]⟩ : TLVRecord)].foldl applyRecord {}) ∧
      handleDataReceived [1] = (parseDeviceData [1]).toOption) :=
  ⟨by decide, tlv_decode_error_contained [⟨1, 2, [75, 0]⟩] [1] (by decide)⟩

/-- Claim C4: a TLV record whose type byte is none of 0x01-0x04 is
skipped by advancing exactly its declared length past the 2-byte
header and contributes nothing (first conjunct), and a frame with such
a record inserted decodes to exactly the same fields as the frame
without it (second conjunct). -/
theorem tlv_unknown_record_skipped (u : TLVRecord) (rest : List Nat)
    (d : PartialDeviceData) (rs1 rs2 : List TLVRecord)
    (hu : u.wf) (h1 : u.rtype ≠ 1) (h2 : u.rtype ≠ 2) (h3 : u.rtype ≠ 3)
    (h4 : u.rtype ≠ 4) (hw1 : ∀ r ∈ rs1, r.wf) (hw2 : ∀ r ∈ rs2, r.wf) :
    parseAux (encodeRecord u ++ rest) d = parseAux rest d ∧
    parseDeviceData (encodeFrame (rs1 ++ u :: rs2)) =
      parseDeviceData (encodeFrame (rs1 ++ rs2)) := by
  have happ : ∀ d0 : PartialDeviceData, applyRecord d0 u = d0 := by
    intro d0
    simp [applyRecord, h1, h2, h3, h4]
  constructor
  · rw [parseAux_record u rest d hu, happ d]
  · have hall1 : ∀ r ∈ rs1 ++ u :: rs2, r.wf := by
      intro r hr
      rcases List.mem_append.mp hr with hx | hx
      · exact hw1 r hx
      · rcases List.mem_cons.mp hx with hx | hx
        · exact hx ▸ hu
        · exact hw2 r hx
    have hall2 : ∀ r ∈ rs1 ++ rs2, r.wf := by
      intro r hr
      rcases List.mem_append.mp hr with hx | hx
      · exact hw1 r hx
      · exact hw2 r hx
    rw [parseDeviceData_eq_parseAux, parseDeviceData_eq_parseAux,
      parseAux_frame _ _ hall1, parseAux_frame _ _ hall2,
      List.foldl_append, List.foldl_append, List.foldl_cons, happ]

/-- Witness for C4: unknown record type 0x99 of declared length 1
between a heart-rate record and a battery record. -/
theorem tlv_unknown_record_skipped_witness :
    (⟨153, 1, [170]⟩ : TLVRecord).wf ∧
    (parseAux (encodeRecord ⟨153, 1, [170]⟩ ++ []) {} = parseAux [] {} ∧
      parseDeviceData
          (encodeFrame ([⟨1, 2, [75, 0]⟩] ++ ⟨153, 1, [170]⟩ :: [⟨4, 1, [90]⟩])) =
        parseDeviceData (encodeFrame ([⟨1, 2, [75, 0]⟩] ++ [⟨4, 1, [90]⟩]))) :=
  ⟨by decide,
    tlv_unknown_record_skipped ⟨153, 1, [170]⟩ [] {} [⟨1, 2, [75, 0]⟩]
      [⟨4, 1, [90]⟩] (by decide) (by decide) (by decide) (by decide) (by decide)
      (by decide) (by decide)⟩

/-- Claim C5 (counterexample): a heartbeat envelope is not routed to
the status handler: it falls to the default branch that logs an
unknown message type, producing zero status/error events, refuting
that every non-data envelope produces exactly one status/error event
matching its type. -/
theorem socket_heartbeat_unknown_cex :
    handleMessage "heartbeat" = MsgAction.unknownMsg ∧
    statusErrorEvents (handleMessage "heartbeat") = 0 := by
  decide

/-- Claim C5 (amended): no envelope with type different from data
produces a DeviceData or any telemetry; status and error envelopes are
routed to the status and error handlers respectively, and any other
type, heartbeat included, falls to the default branch with zero
status/error events. -/
theorem socket_non_data_routing (t : String) (h : t ≠ "data") :
    producesDeviceData (handleMessage t) = false ∧
    telemetryEvents (handleMessage t) = 0 ∧
    (t = "status" → handleMessage t = .statusMsg) ∧
    (t = "error" → handleMessage t = .errorMsg) ∧
    (t ≠ "status" → t ≠ "error" →
      handleMessage t = .unknownMsg ∧ statusErrorEvents (handleMessage t) = 0) := by
  by_cases h1 : t = "status"
  · subst h1
    decide
  · by_cases h2 : t = "error"
    · subst h2
      decide
    · simp [handleMessage, producesDeviceData, telemetryEvents, statusErrorEvents,
        h, h1, h2]

/-- Witness for the amended C5 theorem at the heartbeat envelope. -/
theorem socket_non_data_routing_witness :
    ("heartbeat" : String) ≠ "data" ∧
    (producesDeviceData (handleMessage "heartbeat") = false ∧
      telemetryEvents (handleMessage "heartbeat") = 0 ∧
      ("heartbeat" = "status" → handleMessage "heartbeat" = .statusMsg) ∧
      ("heartbeat" = "error" → handleMessage "heartbeat" = .errorMsg) ∧
      (("heartbeat" : String) ≠ "status" → ("heartbeat" : String) ≠ "error" →
        handleMessage "heartbeat" = .unknownMsg ∧
          statusErrorEvents (handleMessage "heartbeat") = 0)) :=
  ⟨by decide, socket_non_data_routing "heartbeat" (by decide)⟩

/-- Claim C6: over any sequence of chunks, the read loop starting from
an empty buffer emits exactly the trimmed non-blank complete segments
of the concatenated stream, once each and in arrival order, and
retains the text after the last newline as the final buffer. -/
theorem serial_read_loop_reassembly (chunks : List (List Char)) :
    readLoop chunks [] =
      (lastSeg chunks.flatten, completedSegments chunks.flatten) := by
  have h := readLoop_spec chunks [] (by simp)
  simpa using h

/-- Claim C7: the serial frame hr:75,aq:85,battery:90 decodes to a
record with heartRate 75, airQuality 85, inhalerBattery 90 (the short
keys aliased to the canonical names by the merge), the caller-supplied
current timestamp, and no other populated field. -/
theorem serial_simple_frame_scenario (now : Nat) :
    processSimpleFrame now ("hr:75,aq:85,battery:90".toList) =
      { heartRate := some (.num 75), airQuality := some (.num 85),
        inhalerUsage := none, inhalerBattery := some (.num 90),
        wearableBattery := none, timestamp := now } := by
  have h : parseSimpleData ("hr:75,aq:85,battery:90".toList) =
      [("hr".toList, JValue.num 75), ("aq".toList, JValue.num 85),
       ("battery".toList, JValue.num 90)] := by decide
  rw [processSimpleFrame, h]
  simp only [mergeParsed, SerialDeviceData.mk.injEq]
  exact ⟨by decide, by decide, by decide, by decide, by decide, trivial⟩

/-- Claim C8 (counterexample): a user-initiated connect whose transport
branch throws leaves the device status at error, not disconnected, and
the WiFi-layer connect that times out arms a reconnect timer (the
config was registered before the attempt, so the close event schedules
a reconnection), refuting that a failed explicit connect arms no
automatic retry. -/
theorem connect_failure_cex :
    (mgrConnectToDevice {} .threw).1.status = DeviceStatus.error ∧
    (wifiConnectTimeout defaultWifiConfig "dev-1" {}).pendingTimers =
      [⟨"dev-1", 0, 0⟩] := by
  decide

/-- Claim C8 (amended): a failed user-initiated connect sets status
error and emits a second status event when the transport throws, and
leaves status connecting with only the initial event when the
transport resolves false; in both cases false is returned; and the
WiFi transport arms an automatic reconnect timer on a timed-out
explicit connect whenever the attempt count is below the cap. -/
theorem connect_failure_behavior (st : MgrState) (cfg : WifiConfig) (d : String)
    (wst : WifiState)
    (h : getAttempts wst.reconnectAttempts d < cfg.maxReconnectAttempts) :
    (mgrConnectToDevice st .threw).1.status = .error ∧
    (mgrConnectToDevice st .threw).1.events = st.events ++ [.connecting, .error] ∧
    (mgrConnectToDevice st .threw).2 = false ∧
    (mgrConnectToDevice st .resolvedFalse).1.status = .connecting ∧
    (mgrConnectToDevice st .resolvedFalse).1.events = st.events ++ [.connecting] ∧
    pendingFor d (wifiConnectTimeout cfg d wst) = pendingFor d wst + 1 := by
  refine ⟨rfl, by simp [mgrConnectToDevice], rfl, rfl, rfl, ?_⟩
  have h1 : ¬ (cfg.maxReconnectAttempts ≤ getAttempts wst.reconnectAttempts d) := by
    omega
  by_cases hd : d ∈ wst.deviceConfigs <;>
    simp [wifiConnectTimeout, handleDisconnection, hd, scheduleReconnection, h1,
      pendingFor, List.filter_append]

/-- Witness for the amended C8 theorem at fresh states. -/
theorem connect_failure_behavior_witness :
    getAttempts ({} : WifiState).reconnectAttempts "dev-1" <
      defaultWifiConfig.maxReconnectAttempts ∧
    ((mgrConnectToDevice {} .threw).1.status = .error ∧
      (mgrConnectToDevice {} .threw).1.events =
        ({} : MgrState).events ++ [.connecting, .error] ∧
      (mgrConnectToDevice {} .threw).2 = false ∧
      (mgrConnectToDevice {} .resolvedFalse).1.status = .connecting ∧
      (mgrConnectToDevice {} .resolvedFalse).1.events =
        ({} : MgrState).events ++ [.connecting] ∧
      pendingFor "dev-1" (wifiConnectTimeout defaultWifiConfig "dev-1" {}) =
        pendingFor "dev-1" ({} : WifiState) + 1) :=
  ⟨by decide, connect_failure_behavior {} defaultWifiConfig "dev-1" {} (by decide)⟩

/-- Claim C9: emission iterates over every registered subscriber: a
subscriber whose handler throws has its exception caught and logged in
place (the some entry), every subscriber before and after it still
receives the event, the number of invocations equals the number of
subscribers, and the emitter receives a plain list, never an
exception. -/
theorem eventbus_subscriber_isolation {α : Type} (pre post : List (Subscriber α))
    (cb : Subscriber α) (x : α) (e : String) (h : cb x = .error e) :
    emitToAll (pre ++ cb :: post) x =
      emitToAll pre x ++ some e :: emitToAll post x ∧
    (emitToAll (pre ++ cb :: post) x).length = (pre ++ cb :: post).length := by
  refine ⟨?_, emitToAll_length _ _⟩
  rw [emitToAll_append]
  simp [emitToAll, runSubscriber, h]

/-- Witness for C9: a throwing subscriber between two healthy ones. -/
theorem eventbus_subscriber_isolation_witness :
    boomSubscriber 0 = .error "boom" ∧
    (emitToAll ([okSubscriber] ++ boomSubscriber :: [okSubscriber]) 0 =
        emitToAll [okSubscriber] 0 ++ some "boom" :: emitToAll [okSubscriber] 0 ∧
      (emitToAll ([okSubscriber] ++ boomSubscriber :: [okSubscriber]) 0).length =
        ([okSubscriber] ++ boomSubscriber :: [okSubscriber]).length) :=
  ⟨rfl,
    eventbus_subscriber_isolation [okSubscriber] [okSubscriber] boomSubscriber 0
      "boom" rfl⟩

/-- Claim C10: the serial merge uses JS falsy-coalescing, so whenever a
canonical field name maps to the number 0 in the parsed input and its
short alias is absent, the merged field is undefined and the record
drops the legitimate zero reading. -/
theorem serial_zero_reading_dropped (canon aliasKey : List Char)
    (parsed : List (List Char × JValue)) (now : Nat)
    (hmem : (canon, aliasKey) ∈ aliasPairs)
    (hc : lookupKV parsed canon = some (.num 0))
    (ha : lookupKV parsed aliasKey = none) :
    getMergedField canon (mergeParsed now parsed) = none := by
  have hz : truthy (.num 0) = false := by decide
  simp only [aliasPairs, List.mem_cons, List.mem_singleton, Prod.mk.injEq,
    List.not_mem_nil, or_false] at hmem
  rcases hmem with ⟨hc1, ha1⟩ | ⟨hc1, ha1⟩ | ⟨hc1, ha1⟩ | ⟨hc1, ha1⟩ <;>
    subst hc1 <;> subst ha1 <;> unfold getMergedField
  · rw [if_pos rfl]
    show jsOr (lookupKV parsed ("heartRate".toList))
      (lookupKV parsed ("hr".toList)) = none
    rw [hc, ha]
    simp [jsOr, hz]
  · rw [if_neg (by decide), if_pos rfl]
    show jsOr (lookupKV parsed ("airQuality".toList))
      (lookupKV parsed ("aq".toList)) = none
    rw [hc, ha]
    simp [jsOr, hz]
  · rw [if_neg (by decide), if_neg (by decide), if_pos rfl]
    show jsOr (lookupKV parsed ("inhalerUsage".toList))
      (lookupKV parsed ("usage".toList)) = none
    rw [hc, ha]
    simp [jsOr, hz]
  · rw [if_neg (by decide), if_neg (by decide), if_neg (by decide), if_pos rfl]
    show jsOr (lookupKV parsed ("inhalerBattery".toList))
      (lookupKV parsed ("battery".toList)) = none
    rw [hc, ha]
    simp [jsOr, hz]

/-- Witness for C10: the parsed JSON frame with heartRate 0 and no hr
alias loses its heart-rate reading. -/
theorem serial_zero_reading_dropped_witness :
    (("heartRate".toList, "hr".toList) ∈ aliasPairs ∧
      lookupKV [("heartRate".toList, JValue.num 0)] ("heartRate".toList) =
        some (.num 0) ∧
      lookupKV [("heartRate".toList, JValue.num 0)] ("hr".toList) = none) ∧
    getMergedField ("heartRate".toList)
      (mergeParsed 0 [("heartRate".toList, JValue.num 0)]) = none :=
  ⟨⟨by decide, by decide, by decide⟩,
    serial_zero_reading_dropped ("heartRate".toList) ("hr".toList)
      [("heartRate".toList, JValue.num 0)] 0 (by decide) (by decide) (by decide)⟩

end Respira
